import Mathlib

/-!
Shallow embedding of the fast_wallet_service ledger core
(`core/wallet_service.py`, `core/api_key_manager.py`, `core/db.py`) and
proofs of the spec claims about it.

Conventions of the embedding:
* SQLAlchemy rows become Lean structures; the database session state is a
  `DB` record of lists.  `scalar_one_or_none` on a unique-indexed column is
  `List.find?` (first match; theorems about states carry the uniqueness
  facts they need as hypotheses).
* Python integers are `Int` (unbounded, may be negative).
* Python truthiness of an optional string (`if not x:`) is `truthystr`:
  `None` and `""` are falsy.
* Functions that `raise` return `Except`; the per-request
  commit-on-return / rollback-on-exception lifecycle of `get_db`
  (`core/db.py`) is the explicit `run_*_request` wrapper.
* Fresh UUID-derived identifiers and `str(datetime.utcnow())` stamps are
  passed in as parameters.
* `int(data.get("amount", 0))` is modelled by an `Int` field already
  holding the converted value (an absent key is `0`); a payload whose
  amount is not int-convertible makes the handler's `except` branch roll
  back and return `False`, which leaves the database unchanged exactly as
  the `none`-style early returns below do.
-/

namespace FastWallet

/-- Row of the `users` table (`core/models.py`). -/
structure User where
  id : String
  email : String
  name : String
deriving Repr, DecidableEq

/-- Row of the `wallets` table (`core/models.py`); `balance` is a Python
integer, so `Int`. -/
structure Wallet where
  id : String
  userId : String
  balance : Int
  walletNumber : String
deriving Repr, DecidableEq

/-- The JSON `meta` dict of a transaction: every key the source ever reads
or writes, each optional (`none` = key absent; a `None` meta behaves like
an empty dict via `transaction.meta or {}`). -/
structure TxMeta where
  userId : Option String := none
  email : Option String := none
  processedAt : Option String := none
  recipientWalletNumber : Option String := none
  recipientUserId : Option String := none
  senderUserId : Option String := none
  senderWalletNumber : Option String := none
deriving Repr, DecidableEq

/-- Row of the `transactions` table (`core/models.py`). -/
structure Transaction where
  id : String
  walletId : String
  reference : String
  type : String
  amount : Int
  status : String
  meta : TxMeta := {}
deriving Repr, DecidableEq

/-- The ledger-side database state. -/
structure DB where
  users : List User
  wallets : List Wallet
  transactions : List Transaction
deriving Repr, DecidableEq

/-- Python truthiness of `Optional[str]`: `None` and `""` are falsy. -/
def truthystr : Option String → Bool
  | none => false
  | some s => s ≠ ""

/-- Source `get_user_by_email` (wallet_service.py line 15). -/
def get_user_by_email (db : DB) (email : String) : Option User :=
  db.users.find? (fun u => u.email == email)

/-- Source `get_wallet_by_user_id` (wallet_service.py line 37). -/
def get_wallet_by_user_id (db : DB) (userId : String) : Option Wallet :=
  db.wallets.find? (fun w => w.userId == userId)

/-- Source `get_wallet_by_wallet_number` (wallet_service.py line 43). -/
def get_wallet_by_wallet_number (db : DB) (walletNumber : String) : Option Wallet :=
  db.wallets.find? (fun w => w.walletNumber == walletNumber)

/-- Source `get_transaction_by_reference` (wallet_service.py line 51). -/
def get_transaction_by_reference (db : DB) (reference : String) : Option Transaction :=
  db.transactions.find? (fun t => t.reference == reference)

/-- Source `create_user` (wallet_service.py line 21): inserts the user and
a wallet with `balance=0`; the fresh ids and wallet number are parameters. -/
def create_user (db : DB) (email name uid wid walletNumber : String) : DB :=
  { db with
    users := db.users ++ [{ id := uid, email := email, name := name }],
    wallets := db.wallets ++ [{ id := wid, userId := uid, balance := 0, walletNumber := walletNumber }] }

/-- The fields the webhook handler reads from whichever dict it selects as
`data`: `reference`, `amount` (already int-converted, absent = 0),
`status`, `transaction.status`, `customer.email`. -/
structure WebhookData where
  reference : Option String := none
  amount : Int := 0
  status : Option String := none
  txStatus : Option String := none
  customerEmail : Option String := none
deriving Repr, DecidableEq

/-- A webhook payload as the handler sees it: the top-level `event` value,
the `data` sub-dict, and the top-level dict itself (used when `event` is
falsy, in which case `data = payload`). -/
structure Payload where
  event : Option String := none
  data : WebhookData := {}
  top : WebhookData := {}
deriving Repr, DecidableEq

/-- Lines 112–117 of wallet_service.py: if `payload.get("event")` is truthy
it must equal `"charge.success"` (otherwise return False), and `data` is
the `data` sub-dict; otherwise `data` is the payload itself. -/
def chosenData (p : Payload) : Option WebhookData :=
  if truthystr p.event then
    if p.event = some "charge.success" then some p.data else none
  else some p.top

/-- The two in-place mutations plus commit of the webhook success path
(wallet_service.py lines 140–144): `wallet.balance += amount`,
`transaction.status = "success"`, `meta["processed_at"] = str(utcnow())`. -/
def applyCredit (db : DB) (tx : Transaction) (w : Wallet) (amount : Int) (nowStr : String) : DB :=
  { db with
    wallets := db.wallets.map fun x =>
      if x.id = w.id then { x with balance := x.balance + amount } else x,
    transactions := db.transactions.map fun t =>
      if t.id = tx.id then
        { t with status := "success", meta := { t.meta with processedAt := some nowStr } }
      else t }

/-- Lines 130–134 of wallet_service.py: `user_id` from the transaction
meta, falling back to a lookup by the event's `customer.email` (when the
meta id is falsy and the email truthy); a found user's id replaces it,
otherwise the falsy meta value stays. -/
def resolveUserId (db : DB) (tx : Transaction) (d : WebhookData) : Option String :=
  if !(truthystr tx.meta.userId) && truthystr d.customerEmail then
    match get_user_by_email db (d.customerEmail.getD "") with
    | some u => some u.id
    | none => tx.meta.userId
  else tx.meta.userId

/-- Source `handle_paystack_webhook` (wallet_service.py lines 105–148),
returning the post-call database state and the Python return value. -/
def handle_paystack_webhook (db : DB) (p : Payload) (nowStr : String) : DB × Bool :=
  match chosenData p with
  | none => (db, false)
  | some d =>
    match d.reference with
    | none => (db, false)
    | some reference =>
      if reference = "" then (db, false)
      else if (if truthystr d.status then d.status else d.txStatus) ≠ some "success" then
        (db, false)
      else
        match get_transaction_by_reference db reference with
        | none => (db, false)
        | some tx =>
          if tx.status = "success" then (db, true)
          else if !(truthystr (resolveUserId db tx d)) then (db, false)
          else
            match get_wallet_by_user_id db ((resolveUserId db tx d).getD "") with
            | none => (db, false)
            | some w => (applyCredit db tx w d.amount nowStr, true)

/-- The parts of the Paystack `verify_transaction` response that
`reconcile_deposit` reads: top-level `status` truthiness, `data.status`,
and `data.amount` (int-converted, absent = 0). -/
structure VerifyResponse where
  ok : Bool
  dataStatus : Option String := none
  amount : Int := 0
deriving Repr, DecidableEq

/-- Source `reconcile_deposit` (wallet_service.py lines 151–173). -/
def reconcile_deposit (db : DB) (reference : String) (v : VerifyResponse) :
    DB × Bool :=
  if !v.ok then (db, false)
  else if v.dataStatus ≠ some "success" then (db, false)
  else
    match get_transaction_by_reference db reference with
    | none => (db, false)
    | some tx =>
      if tx.status ≠ "pending" then (db, true)
      else if !(truthystr tx.meta.userId) then (db, false)
      else
        match get_wallet_by_user_id db (tx.meta.userId.getD "") with
          | none => (db, false)
          | some w =>
            ({ db with
               wallets := db.wallets.map fun x =>
                 if x.id = w.id then { x with balance := x.balance + v.amount } else x,
               transactions := db.transactions.map fun t =>
                 if t.id = tx.id then { t with status := "success" } else t },
             true)

/-- Errors (`ValueError` messages) raised by `transfer_funds`. -/
inductive TransferError
  | senderNotFound
  | recipientNotFound
  | selfTransfer
  | insufficientBalance
deriving Repr, DecidableEq

/-- Source `transfer_funds` (wallet_service.py lines 200–259).  The fresh
UUID-based ids and references of the two inserted rows are parameters.
A raise becomes `Except.error`; since every mutation in the source happens
after the last check, the error paths carry no session mutation. -/
def transfer_funds (db : DB) (senderUserId recipientWalletNumber : String) (amount : Int)
    (outId outRef inId inRef : String) : Except TransferError DB :=
  match get_wallet_by_user_id db senderUserId,
        get_wallet_by_wallet_number db recipientWalletNumber with
  | none, _ => .error .senderNotFound
  | some _, none => .error .recipientNotFound
  | some sw, some rw =>
    if sw.userId = rw.userId then .error .selfTransfer
    else if sw.balance < amount then .error .insufficientBalance
    else
      let outTx : Transaction :=
        { id := outId, walletId := sw.id, reference := outRef, type := "transfer_out",
          amount := amount, status := "success",
          meta := { recipientWalletNumber := some recipientWalletNumber,
                    recipientUserId := some rw.userId,
                    senderUserId := some senderUserId,
                    senderWalletNumber := some sw.walletNumber } }
      let inTx : Transaction :=
        { id := inId, walletId := rw.id, reference := inRef, type := "transfer_in",
          amount := amount, status := "success",
          meta := { senderUserId := some senderUserId,
                    senderWalletNumber := some sw.walletNumber,
                    recipientWalletNumber := some recipientWalletNumber,
                    recipientUserId := some rw.userId } }
      .ok { db with
            wallets :=
              (db.wallets.map fun x =>
                if x.id = sw.id then { x with balance := x.balance - amount } else x).map
                fun x => if x.id = rw.id then { x with balance := x.balance + amount } else x,
            transactions := db.transactions ++ [outTx, inTx] }

/-- The transfer request as executed under `get_db` (core/db.py lines
27–35): commit on normal return, roll back to the pre-request state when
the `ValueError` propagates. -/
def run_transfer_request (db : DB) (senderUserId recipientWalletNumber : String) (amount : Int)
    (outId outRef inId inRef : String) : DB × Option TransferError :=
  match transfer_funds db senderUserId recipientWalletNumber amount outId outRef inId inRef with
  | .ok db1 => (db1, none)
  | .error e => (db, some e)

/-- The parts of the Paystack `initialize_transaction` response that
`initiate_deposit` reads: `status` truthiness and
`data.authorization_url`. -/
structure InitResponse where
  ok : Bool
  authorizationUrl : String := ""
deriving Repr, DecidableEq

/-- Errors raised by `initiate_deposit`: `ValueError` for a missing wallet,
`ConnectionError` when Paystack initialization fails (surfaced by the
router as a retryable 503). -/
inductive DepositError
  | walletNotFound
  | paystackFailed
deriving Repr, DecidableEq

/-- Source `initiate_deposit` (wallet_service.py lines 62–102), returning
the session state as left by the function together with its outcome.  The
pending row is flushed (visible in the session) before the gateway call;
on gateway failure its status is set to `"failed"` in the session and
`ConnectionError` is raised. -/
def initiate_deposit (db : DB) (userId : String) (amount : Int) (email : String)
    (reference txId : String) (resp : InitResponse) :
    DB × Except DepositError (String × String) :=
  match get_wallet_by_user_id db userId with
  | none => (db, .error .walletNotFound)
  | some w =>
    let tx : Transaction :=
      { id := txId, walletId := w.id, reference := reference, type := "deposit",
        amount := amount, status := "pending",
        meta := { email := some email, userId := some userId } }
    let db1 := { db with transactions := db.transactions ++ [tx] }
    if !resp.ok then
      let db2 := { db1 with
                   transactions := db1.transactions.map fun t =>
                     if t.id = txId then { t with status := "failed" } else t }
      (db2, .error .paystackFailed)
    else (db1, .ok (reference, resp.authorizationUrl))

/-- The deposit request as executed under `get_db` (core/db.py lines
27–35): the session is committed only on normal return; when
`initiate_deposit` raises (wallet missing or `ConnectionError`), the
exception propagates through the router and `get_db` rolls the whole
session back, so the durable state is the pre-request state. -/
def run_deposit_request (db : DB) (userId : String) (amount : Int) (email : String)
    (reference txId : String) (resp : InitResponse) :
    DB × Except DepositError (String × String) :=
  match initiate_deposit db userId amount email reference txId resp with
  | (db1, .ok v) => (db1, .ok v)
  | (_, .error e) => (db, .error e)

/-- States reachable from the empty store by the system's operations, with
the amount constraints under which non-negativity actually holds: webhook
and reconciliation amounts non-negative, transfer amounts positive (the
`gt=0` request validation of `TransferRequest` in schemas/wallet.py).
`hfresh` on `createUser` is the wallet primary-key uniqueness the store
enforces (models.py; ids are fresh UUID4s). -/
inductive Reachable : DB → Prop
  | init : Reachable { users := [], wallets := [], transactions := [] }
  | createUser {db} (email name uid wid wnum : String)
      (hfresh : ∀ w ∈ db.wallets, w.id ≠ wid) :
      Reachable db → Reachable (create_user db email name uid wid wnum)
  | deposit {db} (userId : String) (amount : Int) (email reference txId : String)
      (resp : InitResponse) :
      Reachable db → Reachable (run_deposit_request db userId amount email reference txId resp).1
  | webhook {db} (p : Payload) (nowStr : String)
      (hd : 0 ≤ p.data.amount) (ht : 0 ≤ p.top.amount) :
      Reachable db → Reachable (handle_paystack_webhook db p nowStr).1
  | reconcile {db} (reference : String) (v : VerifyResponse) (hv : 0 ≤ v.amount) :
      Reachable db → Reachable (reconcile_deposit db reference v).1
  | transfer {db} (senderUserId recipientWalletNumber : String) (amount : Int)
      (outId outRef inId inRef : String) (ha : 0 < amount) :
      Reachable db →
      Reachable (run_transfer_request db senderUserId recipientWalletNumber amount
        outId outRef inId inRef).1

/-- The wallet-table invariant carried through reachability proofs:
non-negative balances plus primary-key uniqueness of wallet ids. -/
def WalletInv (db : DB) : Prop :=
  (∀ w ∈ db.wallets, 0 ≤ w.balance) ∧ (db.wallets.map fun w => w.id).Nodup

/-- Whitespace stripped by Python's `int(str)` conversion, restricted to
the ASCII range (0x09–0x0D, 0x1C–0x1F, 0x20). -/
def isPySpace (c : Char) : Bool :=
  c = ' ' || c = '\t' || c = '\n' || c = '\x0b' || c = '\x0c' || c = '\r' ||
  c = '\x1c' || c = '\x1d' || c = '\x1e' || c = '\x1f'

/-- Tail of a Python integer digit sequence: digits with single
underscores allowed only between digits (`1_0` is legal, `1__0`, `1_`
are not). -/
def pyDigitsTail : List Char → Bool
  | [] => true
  | c :: rest =>
    if c = '_' then
      match rest with
      | [] => false
      | c2 :: rest2 => c2.isDigit && pyDigitsTail rest2
    else c.isDigit && pyDigitsTail rest

/-- Numeric value of a digit list (underscores already removed). -/
def digitsVal (l : List Char) : Nat :=
  l.foldl (fun a c => 10 * a + (c.toNat - 48)) 0

/-- Strip leading and trailing Python whitespace. -/
def pyStrip (l : List Char) : List Char :=
  ((l.dropWhile isPySpace).reverse.dropWhile isPySpace).reverse

/-- Optional single leading sign of a Python integer literal. -/
def pySign : List Char → Int × List Char
  | [] => (1, [])
  | c :: r =>
    if c = '+' then (1, r)
    else if c = '-' then ((-1 : Int), r)
    else (1, c :: r)

/-- Python's `int(s)` for base 10 over ASCII strings: optional surrounding
whitespace, optional sign, then a nonempty digit sequence with single
embedded underscores; `none` when `int` would raise `ValueError`. -/
def pythonInt (s : String) : Option Int :=
  match pySign (pyStrip s.toList) with
  | (_, []) => none
  | (sign, c :: rest) =>
    if c.isDigit && pyDigitsTail rest then
      some (sign * (digitsVal ((c :: rest).filter fun x => x ≠ '_') : Int))
    else none

/-- Exceptions `parse_expiry` can raise: `ValueError` (from `int` or from
the unit match) and `IndexError` (from `expiry_str[-1]` on the empty
string). -/
inductive PyError
  | valueError (msg : String)
  | indexError
deriving Repr, DecidableEq

/-- Source `parse_expiry` (api_key_manager.py lines 15–30): last character
uppercased is the unit, the rest goes through `int`; durations are
returned in hours (`timedelta(hours=v)`, `days=v` = 24v, `days=30v`,
`days=365v`). -/
def parse_expiry (s : String) : Except PyError Int :=
  match s.toList.getLast? with
  | none => .error .indexError
  | some u0 =>
    let unit := u0.toUpper
    match pythonInt (String.mk s.toList.dropLast) with
    | none => .error (.valueError "invalid literal for int() with base 10")
    | some v =>
      if unit = 'H' then .ok v
      else if unit = 'D' then .ok (24 * v)
      else if unit = 'M' then .ok (24 * 30 * v)
      else if unit = 'Y' then .ok (24 * 365 * v)
      else .error (.valueError "Invalid expiry format. Use 1H, 1D, 1M, or 1Y.")

/-- Hour multiplier of a unit letter, exactly the unit set {H, D, M, Y}
the claim names (uppercase only). -/
def claimedUnitHours : Char → Option Int
  | 'H' => some 1
  | 'D' => some 24
  | 'M' => some (24 * 30)
  | 'Y' => some (24 * 365)
  | _ => none

/-- The expiry grammar exactly as the claim words it: one or more digits
followed by a single unit letter from {H, D, M, Y}, mapped to the
corresponding duration (same hour counts as the source). -/
def claimedExpiryDuration (s : String) : Option Int :=
  match s.toList.getLast? with
  | none => none
  | some u =>
    if s.toList.dropLast ≠ [] ∧ s.toList.dropLast.all Char.isDigit then
      match claimedUnitHours u with
      | none => none
      | some m => some (m * (digitsVal s.toList.dropLast : Int))
    else none

/-- Row of the `api_keys` table (core/models.py); timestamps are counted
in hours so that `parse_expiry` durations add directly. -/
structure APIKey where
  id : String
  userId : String
  name : String
  keyHash : String
  permissions : List String
  expiresAt : Int
  isActive : Bool
deriving Repr, DecidableEq

/-- The key-management slice of the store. -/
structure KeyDB where
  keys : List APIKey
deriving Repr, DecidableEq

/-- `APIKeyPermissions.ALL` from schemas/keys.py. -/
def APIKeyPermissions_ALL : List String := ["deposit", "transfer", "read"]

/-- SHA-256 hex digest (`hash_api_key`, core/security.py), abstracted to a
tagged string map: no claim proved here depends on the digest values,
only on the fact that `key_hash` is what gets stored. -/
def hash_api_key (s : String) : String := "sha256-" ++ s

/-- Errors (`ValueError`s) raised by the key manager. -/
inductive KeyError
  | limitReached
  | invalidPermission (p : String)
  | invalidExpiry
  | keyNotFound
  | notYetExpired
deriving Repr, DecidableEq

/-- The limit-check query of `generate_api_key` (api_key_manager.py lines
44–49): the user's keys with `is_active` and `expires_at >` now. -/
def activeKeysQuery (kdb : KeyDB) (userId : String) (now : Int) : List APIKey :=
  kdb.keys.filter fun k => k.userId == userId && k.isActive && decide (now < k.expiresAt)

/-- Source `generate_api_key` (api_key_manager.py lines 35–84).  The fresh
UUID-derived id and raw key (`sk_live_{uuid4().hex}`) are parameters; on
success the row is inserted and the raw key plus expiry are returned.
Both `ValueError`s thrown out of `parse_expiry` surface as
`invalidExpiry`. -/
def generate_api_key (kdb : KeyDB) (now : Int) (userId name : String)
    (permissions : List String) (expiryStr : String) (newId rawKey : String) :
    Except KeyError (KeyDB × String × Int) :=
  if 5 ≤ (activeKeysQuery kdb userId now).length then .error .limitReached
  else
    match permissions.find? (fun p => !(APIKeyPermissions_ALL.contains p)) with
    | some p => .error (.invalidPermission p)
    | none =>
      match parse_expiry expiryStr with
      | .error _ => .error .invalidExpiry
      | .ok delta =>
        let expiresAt := now + delta
        let newKey : APIKey :=
          { id := newId, userId := userId, name := name,
            keyHash := hash_api_key rawKey, permissions := permissions,
            expiresAt := expiresAt, isActive := true }
        .ok ({ keys := kdb.keys ++ [newKey] }, rawKey, expiresAt)

/-- Source `rollover_api_key` (api_key_manager.py lines 114–135): refuses
while `expires_at > now`; otherwise deactivates the old key and calls
`generate_api_key` with the old key's permission list.  When the nested
call raises, the request-level rollback (core/db.py) also discards the
deactivation, which the `Except` propagation mirrors. -/
def rollover_api_key (kdb : KeyDB) (now : Int) (expiredKeyId expiryStr : String)
    (newId rawKey : String) : Except KeyError (KeyDB × String × Int) :=
  match kdb.keys.find? (fun k => k.id == expiredKeyId) with
  | none => .error .keyNotFound
  | some oldKey =>
    if now < oldKey.expiresAt then .error .notYetExpired
    else
      generate_api_key
        { keys := kdb.keys.map fun k =>
            if k.id = oldKey.id then { k with isActive := false } else k }
        now oldKey.userId ("Rollover of " ++ oldKey.name)
        oldKey.permissions expiryStr newId rawKey

/-- Modelled from the spec: `revoke_api_key` is imported by
routers/keys.py from core.api_key_manager but its body is missing from
the sources.  Spec 4.5: "revoke: idempotent deactivation scoped to the
calling user's own keys; revoking a non-existent or already-inactive key
is reported as not found".  The model deactivates the caller's matching
active key and reports whether one was found. -/
def revoke_api_key (kdb : KeyDB) (userId keyId : String) : KeyDB × Bool :=
  match kdb.keys.find? (fun k => k.id == keyId && k.userId == userId && k.isActive) with
  | none => (kdb, false)
  | some k0 =>
    ({ keys := kdb.keys.map fun k =>
         if k.id = k0.id then { k with isActive := false } else k },
     true)

/-- Key-store states reachable from an empty store under the key
lifecycle: time only moves forward, failed operations roll back (hence
only successful `generate`/`rollover` steps change the store). -/
inductive KeyReachable : KeyDB → Int → Prop
  | init (t0 : Int) : KeyReachable { keys := [] } t0
  | tick {kdb now} (now1 : Int) (h : now ≤ now1) :
      KeyReachable kdb now → KeyReachable kdb now1
  | create {kdb now} (userId name : String) (permissions : List String)
      (expiryStr newId rawKey : String) {kdb1 : KeyDB} {raw : String} {exp : Int}
      (h : generate_api_key kdb now userId name permissions expiryStr newId rawKey
            = .ok (kdb1, raw, exp)) :
      KeyReachable kdb now → KeyReachable kdb1 now
  | rollover {kdb now} (expiredKeyId expiryStr newId rawKey : String)
      {kdb1 : KeyDB} {raw : String} {exp : Int}
      (h : rollover_api_key kdb now expiredKeyId expiryStr newId rawKey
            = .ok (kdb1, raw, exp)) :
      KeyReachable kdb now → KeyReachable kdb1 now
  | revoke {kdb now} (userId keyId : String) :
      KeyReachable kdb now → KeyReachable (revoke_api_key kdb userId keyId).1 now

/-- Concrete state for the C1 counterexample: one wallet at balance 0 and
an already-terminal (`failed`) deposit transaction. -/
def exC1db : DB :=
  { users := [],
    wallets := [{ id := "w1", userId := "u1", balance := 0, walletNumber := "N1" }],
    transactions := [{ id := "t1", walletId := "w1", reference := "R", type := "deposit",
                       amount := 100, status := "failed",
                       meta := { userId := some "u1" } }] }

/-- A success webhook (flattened Paystack format) for reference `R` over
amount 100, used against `exC1db`. -/
def exC1payload : Payload :=
  { top := { reference := some "R", amount := 100, status := some "success" } }

/-- Concrete state for the C1 witness: same shape as `exC1db` but the
transaction is still `pending`. -/
def exC1wdb : DB :=
  { users := [],
    wallets := [{ id := "w1", userId := "u1", balance := 0, walletNumber := "N1" }],
    transactions := [{ id := "t1", walletId := "w1", reference := "R", type := "deposit",
                       amount := 100, status := "pending",
                       meta := { userId := some "u1" } }] }

/-- Concrete two-wallet state for the transfer claims: sender `u1` at
balance 1000 (wallet `N1`), recipient `u2` at balance 500 (wallet
`N2`) — the spec's own scenario. -/
def exTransferDb : DB :=
  { users := [],
    wallets := [{ id := "w1", userId := "u1", balance := 1000, walletNumber := "N1" },
                { id := "w2", userId := "u2", balance := 500, walletNumber := "N2" }],
    transactions := [] }

/-- Concrete state for C4: a pending deposit transaction for `R`. -/
def exC4db : DB :=
  { users := [],
    wallets := [{ id := "w1", userId := "u1", balance := 0, walletNumber := "N1" }],
    transactions := [{ id := "t1", walletId := "w1", reference := "R", type := "deposit",
                       amount := 100, status := "pending",
                       meta := { userId := some "u1" } }] }

/-- A declined-charge webhook for reference `R`. -/
def exC4payload : Payload :=
  { event := some "charge.failed",
    data := { reference := some "R", amount := 100, status := some "failed" } }

/-- Initial one-user state for the C3 counterexample and the C6 failing
input, built by `create_user` on the empty store. -/
def exOneUserDb : DB :=
  create_user { users := [], wallets := [], transactions := [] } "a@b.c" "Ada" "u1" "w1" "N1"

/-- C3 counterexample payload: a signed success webhook whose amount is
negative; the handler performs no sign check. -/
def exC3payload : Payload :=
  { top := { reference := some "DEP-1", amount := -5, status := some "success" } }

/-- Concrete state for the C7 webhook scenario: pending deposit recorded
with amount 5000, while the event will report 4000. -/
def exC7db : DB :=
  { users := [],
    wallets := [{ id := "w1", userId := "u1", balance := 0, walletNumber := "N1" }],
    transactions := [{ id := "t1", walletId := "w1", reference := "DEP-X", type := "deposit",
                       amount := 5000, status := "pending",
                       meta := { userId := some "u1" } }] }

/-- C7 webhook payload reporting 4000 for the 5000-recorded deposit. -/
def exC7payload : Payload :=
  { event := some "charge.success",
    data := { reference := some "DEP-X", amount := 4000, status := some "success" } }

/-- Key store with five active unexpired keys for user `u`, for the C8
limit check (now = 0, all expiring at 10). -/
def exC8kdb : KeyDB :=
  { keys := ["k1", "k2", "k3", "k4", "k5"].map fun i =>
      { id := i, userId := "u", name := i, keyHash := "h", permissions := ["read"],
        expiresAt := 10, isActive := true } }

/-- Key store for the C9 boundary counterexample: a single active key
whose expiry timestamp equals the current time (100). -/
def exC9kdb : KeyDB :=
  { keys := [{ id := "k1", userId := "u", name := "old", keyHash := "h",
               permissions := ["read", "transfer"], expiresAt := 100, isActive := true }] }

/-- Key store for the C9 witness: one key already expired at 100, rolled
over at time 200. -/
def exC9wkdb : KeyDB :=
  { keys := [{ id := "k1", userId := "u", name := "old", keyHash := "h",
               permissions := ["read", "transfer"], expiresAt := 100, isActive := true }] }

theorem find?_map_pres {α : Type} (f : α → α) (p : α → Bool)
    (h : ∀ a, p (f a) = p a) :
    ∀ l : List α, (l.map f).find? p = (l.find? p).map f := by
  intro l
  induction l with
  | nil => rfl
  | cons a l ih =>
    cases hp : p a with
    | true =>
      rw [List.map_cons, List.find?_cons_of_pos _ (by rw [h a]; exact hp),
        List.find?_cons_of_pos _ hp, Option.map_some']
    | false =>
      rw [List.map_cons, List.find?_cons_of_neg _ (by rw [h a, hp]; simp),
        List.find?_cons_of_neg _ (by rw [hp]; simp), ih]

theorem length_filter_le_of_imp {α : Type} (p q : α → Bool) :
    ∀ l : List α, (∀ a ∈ l, p a = true → q a = true) →
      (l.filter p).length ≤ (l.filter q).length := by
  intro l
  induction l with
  | nil => intro _; simp
  | cons a l ih =>
    intro h
    have htail := ih fun x hx => h x (List.mem_cons_of_mem a hx)
    cases hp : p a with
    | true =>
      have hq := h a (List.mem_cons_self a l) hp
      simp [List.filter_cons, hp, hq]
      omega
    | false =>
      cases hq : q a with
      | true =>
        simp [List.filter_cons, hp, hq]
        omega
      | false => simp [List.filter_cons, hp, hq]; exact htail

theorem length_filter_map_le {α : Type} (f : α → α) (p : α → Bool) :
    ∀ l : List α, (∀ a ∈ l, p (f a) = true → p a = true) →
      ((l.map f).filter p).length ≤ (l.filter p).length := by
  intro l
  induction l with
  | nil => intro _; simp
  | cons a l ih =>
    intro h
    have htail := ih fun x hx => h x (List.mem_cons_of_mem a hx)
    cases hfa : p (f a) with
    | true =>
      have hpa := h a (List.mem_cons_self a l) hfa
      simp [List.filter_cons, hfa, hpa]
      omega
    | false =>
      cases hpa : p a with
      | true =>
        simp [List.filter_cons, hfa, hpa]
        omega
      | false => simp [List.filter_cons, hfa, hpa]; exact htail

theorem length_filter_map_eq {α : Type} (f : α → α) (p : α → Bool) :
    ∀ l : List α, (∀ a ∈ l, p (f a) = p a) →
      ((l.map f).filter p).length = (l.filter p).length := by
  intro l
  induction l with
  | nil => intro _; rfl
  | cons a l ih =>
    intro h
    have htail := ih fun x hx => h x (List.mem_cons_of_mem a hx)
    have ha := h a (List.mem_cons_self a l)
    cases hpa : p a with
    | true => simp [List.filter_cons, ha, hpa, htail]
    | false => simp [List.filter_cons, ha, hpa, htail]

theorem handle_webhook_applied
    (db : DB) (p : Payload) (nowStr : String) (d : WebhookData) (ref : String)
    (tx : Transaction) (uid : String) (w : Wallet)
    (hd : chosenData p = some d)
    (href : d.reference = some ref) (hrefne : ref ≠ "")
    (hstat : (if truthystr d.status then d.status else d.txStatus) = some "success")
    (htx : get_transaction_by_reference db ref = some tx)
    (hns : tx.status ≠ "success")
    (huid : tx.meta.userId = some uid) (huidne : uid ≠ "")
    (hw : get_wallet_by_user_id db uid = some w) :
    handle_paystack_webhook db p nowStr = (applyCredit db tx w d.amount nowStr, true) := by
  have hres : resolveUserId db tx d = some uid := by
    unfold resolveUserId
    rw [huid]
    simp [truthystr, huidne]
  have htruthy : truthystr (some uid) = true := by simp [truthystr, huidne]
  simp only [handle_paystack_webhook, hd, href, if_neg hrefne, hstat, htx, if_neg hns, hres,
    htruthy, Bool.not_true, Option.getD_some, hw]
  simp [htruthy, hw, hres]

theorem handle_webhook_already
    (db : DB) (p : Payload) (nowStr : String) (d : WebhookData) (ref : String)
    (tx : Transaction)
    (hd : chosenData p = some d)
    (href : d.reference = some ref) (hrefne : ref ≠ "")
    (hstat : (if truthystr d.status then d.status else d.txStatus) = some "success")
    (htx : get_transaction_by_reference db ref = some tx)
    (hsucc : tx.status = "success") :
    handle_paystack_webhook db p nowStr = (db, true) := by
  simp only [handle_paystack_webhook, hd, href, if_neg hrefne, hstat, htx, if_pos hsucc]
  simp

theorem applyCredit_wallet_lookup
    (db : DB) (tx : Transaction) (w : Wallet) (a : Int) (n : String) (uid : String)
    (hw : get_wallet_by_user_id db uid = some w) :
    get_wallet_by_user_id (applyCredit db tx w a n) uid
      = some { w with balance := w.balance + a } := by
  unfold get_wallet_by_user_id applyCredit at *
  rw [find?_map_pres _ _ (fun x => by by_cases hx : x.id = w.id <;> simp [hx]), hw,
    Option.map_some']
  simp

theorem applyCredit_tx_lookup
    (db : DB) (tx : Transaction) (w : Wallet) (a : Int) (n : String) (ref : String)
    (htx : get_transaction_by_reference db ref = some tx) :
    get_transaction_by_reference (applyCredit db tx w a n) ref
      = some { tx with status := "success", meta := { tx.meta with processedAt := some n } } := by
  unfold get_transaction_by_reference applyCredit at *
  rw [find?_map_pres _ _ (fun t => by by_cases ht : t.id = tx.id <;> simp [ht]), htx,
    Option.map_some']
  simp

/-- C1 (amended): webhook finalization is idempotent only with respect to
the `success` terminal status.  If the referenced transaction is not yet
`success` (pending — or, contrary to the claim, even `failed`), a success
webhook credits the resolved wallet by the event amount and flips the
status; delivering the identical payload a second time returns the
already-applied outcome `true` with no further mutation, so the balance
rises by the event amount exactly once.  A transaction whose status is
already `success` is a no-op returning `true`; one whose status is
`failed` is NOT protected (see the counterexample). -/
theorem C1_webhook_success_idempotent
    (db : DB) (p : Payload) (n1 n2 : String) (d : WebhookData) (ref : String)
    (tx : Transaction) (uid : String) (w : Wallet)
    (hd : chosenData p = some d)
    (href : d.reference = some ref) (hrefne : ref ≠ "")
    (hstat : (if truthystr d.status then d.status else d.txStatus) = some "success")
    (htx : get_transaction_by_reference db ref = some tx)
    (hns : tx.status ≠ "success")
    (huid : tx.meta.userId = some uid) (huidne : uid ≠ "")
    (hw : get_wallet_by_user_id db uid = some w) :
    (handle_paystack_webhook db p n1).2 = true ∧
    get_wallet_by_user_id (handle_paystack_webhook db p n1).1 uid
      = some { w with balance := w.balance + d.amount } ∧
    handle_paystack_webhook (handle_paystack_webhook db p n1).1 p n2
      = ((handle_paystack_webhook db p n1).1, true) := by
  have h1 := handle_webhook_applied db p n1 d ref tx uid w hd href hrefne hstat htx hns
    huid huidne hw
  rw [h1]
  refine ⟨rfl, applyCredit_wallet_lookup db tx w d.amount n1 uid hw, ?_⟩
  exact handle_webhook_already _ p n2 d ref _ hd href hrefne hstat
    (applyCredit_tx_lookup db tx w d.amount n1 ref htx) rfl

/-- C1 witness: concrete run of the amended idempotency theorem on a
pending 100-unit deposit at balance 0. -/
theorem C1_webhook_success_idempotent_witness :
    (handle_paystack_webhook exC1wdb exC1payload "t1").2 = true ∧
    get_wallet_by_user_id (handle_paystack_webhook exC1wdb exC1payload "t1").1 "u1"
      = some { id := "w1", userId := "u1", balance := (0 : Int) + 100, walletNumber := "N1" } ∧
    handle_paystack_webhook (handle_paystack_webhook exC1wdb exC1payload "t1").1 exC1payload "t2"
      = ((handle_paystack_webhook exC1wdb exC1payload "t1").1, true) :=
  C1_webhook_success_idempotent exC1wdb exC1payload "t1" "t2"
    { reference := some "R", amount := 100, status := some "success" } "R"
    { id := "t1", walletId := "w1", reference := "R", type := "deposit",
      amount := 100, status := "pending", meta := { userId := some "u1" } }
    "u1" { id := "w1", userId := "u1", balance := 0, walletNumber := "N1" }
    (by decide) (by decide) (by decide) (by decide) (by decide) (by decide)
    (by decide) (by decide) (by decide)

/-- C1 counterexample: the claim also asserts a no-op for transactions
already terminal as `failed`, but the handler only short-circuits on
`success` (wallet_service.py line 128): a success webhook for an already
`failed` transaction re-applies it — balance moves from 0 to 100, the
status flips to `success`, and the call does not return the unchanged
state. -/
theorem C1_counterexample :
    (get_transaction_by_reference exC1db "R").map (fun t => t.status) = some "failed" ∧
    (handle_paystack_webhook exC1db exC1payload "ts").2 = true ∧
    ((handle_paystack_webhook exC1db exC1payload "ts").1.wallets.map fun w => w.balance)
      = [100] ∧
    handle_paystack_webhook exC1db exC1payload "ts" ≠ (exC1db, true) := by
  refine ⟨by decide, by decide, by decide, ?_⟩
  decide

/-- C4 (amended): a webhook whose payload indicates failure or decline —
either a truthy non-`charge.success` event kind, or a selected data dict
whose resolved status is not `"success"` — is a pure no-op returning
`false`: the handler never sets the transaction to `failed` (it returns
before reaching any mutation, wallet_service.py lines 113–124), so the
state is returned unchanged. -/
theorem C4_failure_webhook_noop
    (db : DB) (p : Payload) (nowStr : String)
    (h : (truthystr p.event = true ∧ p.event ≠ some "charge.success") ∨
         (∀ d, chosenData p = some d →
            (if truthystr d.status then d.status else d.txStatus) ≠ some "success")) :
    handle_paystack_webhook db p nowStr = (db, false) := by
  rcases h with ⟨he, hne⟩ | hstat
  · have hcd : chosenData p = none := by
      unfold chosenData
      rw [if_pos he, if_neg hne]
    simp [handle_paystack_webhook, hcd]
  · cases hcd : chosenData p with
    | none => simp [handle_paystack_webhook, hcd]
    | some d =>
      have hs := hstat d hcd
      cases href : d.reference with
      | none => simp [handle_paystack_webhook, hcd, href]
      | some ref =>
        by_cases hre : ref = ""
        · simp [handle_paystack_webhook, hcd, href, hre]
        · simp [handle_paystack_webhook, hcd, href, hre, hs]

/-- C4 witness: the concrete declined-charge webhook against the pending
transaction state is a no-op returning `false`. -/
theorem C4_failure_webhook_noop_witness :
    handle_paystack_webhook exC4db exC4payload "ts" = (exC4db, false) :=
  C4_failure_webhook_noop exC4db exC4payload "ts" (Or.inl ⟨by decide, by decide⟩)

/-- C4 counterexample: the claim requires the pending transaction to be
set to `failed` (and committed) on a failure event; in fact the handler
returns the state unchanged — the transaction is still `pending`
afterwards, not `failed`. -/
theorem C4_counterexample :
    handle_paystack_webhook exC4db exC4payload "t" = (exC4db, false) ∧
    ((handle_paystack_webhook exC4db exC4payload "t").1.transactions.map fun t => t.status)
      = ["pending"] :=
  ⟨by decide, by decide⟩

/-- C5: a transfer attempt whose amount exceeds the sender's balance (with
both wallets present and distinct owners, so the earlier checks pass)
raises the insufficient-balance `ValueError`; no mutation happens — the
error is raised before any balance write or row insert
(wallet_service.py lines 217–218), and the request-level state is exactly
the pre-request state. -/
theorem C5_insufficient_balance_no_mutation
    (db : DB) (s n : String) (amount : Int) (oi orf ii irf : String)
    (sw rw : Wallet)
    (hs : get_wallet_by_user_id db s = some sw)
    (hr : get_wallet_by_wallet_number db n = some rw)
    (hneq : sw.userId ≠ rw.userId)
    (hlt : sw.balance < amount) :
    transfer_funds db s n amount oi orf ii irf = .error .insufficientBalance ∧
    (run_transfer_request db s n amount oi orf ii irf).1 = db := by
  have h1 : transfer_funds db s n amount oi orf ii irf = .error .insufficientBalance := by
    simp only [transfer_funds, hs, hr, if_neg hneq, if_pos hlt]
  exact ⟨h1, by unfold run_transfer_request; rw [h1]⟩

/-- C5 witness: transferring 2000 from the wallet holding 1000 fails with
the insufficient-balance error and leaves the state untouched. -/
theorem C5_insufficient_balance_no_mutation_witness :
    transfer_funds exTransferDb "u1" "N2" 2000 "i1" "TRF-1" "i2" "TRF-2"
      = .error .insufficientBalance ∧
    (run_transfer_request exTransferDb "u1" "N2" 2000 "i1" "TRF-1" "i2" "TRF-2").1
      = exTransferDb :=
  C5_insufficient_balance_no_mutation exTransferDb "u1" "N2" 2000 "i1" "TRF-1" "i2" "TRF-2"
    { id := "w1", userId := "u1", balance := 1000, walletNumber := "N1" }
    { id := "w2", userId := "u2", balance := 500, walletNumber := "N2" }
    (by decide) (by decide) (by decide) (by decide)

/-- C2: a successful transfer of a positive amount debits the sender by
the amount, credits the recipient by the amount, and appends exactly two
new `success` Transaction rows — a `transfer_out` on the sender's wallet
and a `transfer_in` on the recipient's — both carrying that amount
(wallet_service.py lines 220–259).  `hid` is the wallet primary-key
uniqueness of the store (distinct owners means distinct rows). -/
theorem C2_transfer_funds_correct
    (db : DB) (s n : String) (amount : Int) (oi orf ii irf : String)
    (sw rw : Wallet)
    (hs : get_wallet_by_user_id db s = some sw)
    (hr : get_wallet_by_wallet_number db n = some rw)
    (hneq : sw.userId ≠ rw.userId)
    (hid : sw.id ≠ rw.id)
    (hpos : 0 < amount)
    (hbal : ¬ sw.balance < amount) :
    ∃ db1, transfer_funds db s n amount oi orf ii irf = .ok db1 ∧
      get_wallet_by_user_id db1 s = some { sw with balance := sw.balance - amount } ∧
      get_wallet_by_wallet_number db1 n = some { rw with balance := rw.balance + amount } ∧
      ∃ t1 t2, db1.transactions = db.transactions ++ [t1, t2] ∧
        t1.type = "transfer_out" ∧ t1.walletId = sw.id ∧ t1.amount = amount ∧
        t1.status = "success" ∧
        t2.type = "transfer_in" ∧ t2.walletId = rw.id ∧ t2.amount = amount ∧
        t2.status = "success" := by
  have hid' : rw.id ≠ sw.id := Ne.symm hid
  simp only [transfer_funds, hs, hr, if_neg hneq, if_neg hbal]
  refine ⟨_, rfl, ?_, ?_, ?_⟩
  · have hs' : db.wallets.find? (fun w => w.userId == s) = some sw := hs
    unfold get_wallet_by_user_id
    rw [find?_map_pres _ _ (fun x => by by_cases hx : x.id = rw.id <;> simp [hx]),
        find?_map_pres _ _ (fun x => by by_cases hx : x.id = sw.id <;> simp [hx]), hs']
    simp [hid]
  · have hr' : db.wallets.find? (fun w => w.walletNumber == n) = some rw := hr
    unfold get_wallet_by_wallet_number
    rw [find?_map_pres _ _ (fun x => by by_cases hx : x.id = rw.id <;> simp [hx]),
        find?_map_pres _ _ (fun x => by by_cases hx : x.id = sw.id <;> simp [hx]), hr']
    simp [hid']
  · exact ⟨_, _, rfl, rfl, rfl, rfl, rfl, rfl, rfl, rfl, rfl⟩

/-- C2 witness: the spec's own scenario — transferring 300 from a wallet
at 1000 to a wallet at 500 yields 700 and 800 and the two rows. -/
theorem C2_transfer_funds_correct_witness :
    ∃ db1, transfer_funds exTransferDb "u1" "N2" 300 "i1" "TRF-1" "i2" "TRF-2" = .ok db1 ∧
      get_wallet_by_user_id db1 "u1"
        = some { id := "w1", userId := "u1", balance := (1000 : Int) - 300, walletNumber := "N1" } ∧
      get_wallet_by_wallet_number db1 "N2"
        = some { id := "w2", userId := "u2", balance := (500 : Int) + 300, walletNumber := "N2" } ∧
      ∃ t1 t2, db1.transactions = exTransferDb.transactions ++ [t1, t2] ∧
        t1.type = "transfer_out" ∧ t1.walletId = "w1" ∧ t1.amount = 300 ∧
        t1.status = "success" ∧
        t2.type = "transfer_in" ∧ t2.walletId = "w2" ∧ t2.amount = 300 ∧
        t2.status = "success" :=
  C2_transfer_funds_correct exTransferDb "u1" "N2" 300 "i1" "TRF-1" "i2" "TRF-2"
    { id := "w1", userId := "u1", balance := 1000, walletNumber := "N1" }
    { id := "w2", userId := "u2", balance := 500, walletNumber := "N2" }
    (by decide) (by decide) (by decide) (by decide) (by decide) (by decide)

/-- C6 (code bug): on gateway failure `initiate_deposit` does set the
flushed pending transaction's status to `"failed"` in the session (first
conjunct — the in-session state after the call), and the router surfaces
the `ConnectionError` as a retryable 503; but the exception then
propagates through `get_db` (core/db.py lines 27–35), which rolls the
whole uncommitted session back, so the durable state after the request is
exactly the pre-request state: no transaction for the reference survives
at all, let alone one marked `failed`. -/
theorem C6_gateway_failure_rolls_back :
    ((get_transaction_by_reference
        (initiate_deposit exOneUserDb "u1" 500 "a@b.c" "DEP-X" "t1" { ok := false }).1
        "DEP-X").map fun t => t.status) = some "failed" ∧
    run_deposit_request exOneUserDb "u1" 500 "a@b.c" "DEP-X" "t1" { ok := false }
      = (exOneUserDb, .error .paystackFailed) ∧
    get_transaction_by_reference
      (run_deposit_request exOneUserDb "u1" 500 "a@b.c" "DEP-X" "t1" { ok := false }).1
      "DEP-X" = none :=
  ⟨by decide, by rfl, by decide⟩

/-- C7: when a pending deposit is finalized as success, the amount
credited is the amount reported by the webhook event (`d.amount`) resp.
the gateway verification (`v.amount`), not the amount recorded on the
pending Transaction row, and no cross-check is performed: both theorems
hold with the recorded `tx.amount` entirely unconstrained, and the
mismatch hypotheses show a differing event amount is still applied
(wallet_service.py lines 121/140 and 158/170). -/
theorem C7_credit_uses_event_amount
    (db1 : DB) (p : Payload) (n1 : String) (d : WebhookData) (ref1 : String)
    (tx1 : Transaction) (uid1 : String) (w1 : Wallet)
    (hd : chosenData p = some d) (href : d.reference = some ref1) (hrefne : ref1 ≠ "")
    (hstat : (if truthystr d.status then d.status else d.txStatus) = some "success")
    (htx1 : get_transaction_by_reference db1 ref1 = some tx1)
    (hns : tx1.status ≠ "success")
    (huid1 : tx1.meta.userId = some uid1) (huidne1 : uid1 ≠ "")
    (hw1 : get_wallet_by_user_id db1 uid1 = some w1)
    (hmismatch1 : d.amount ≠ tx1.amount)
    (db2 : DB) (ref2 : String) (v : VerifyResponse)
    (tx2 : Transaction) (uid2 : String) (w2 : Wallet)
    (hok : v.ok = true) (hst : v.dataStatus = some "success")
    (htx2 : get_transaction_by_reference db2 ref2 = some tx2)
    (hpend2 : tx2.status = "pending")
    (huid2 : tx2.meta.userId = some uid2) (huidne2 : uid2 ≠ "")
    (hw2 : get_wallet_by_user_id db2 uid2 = some w2)
    (hmismatch2 : v.amount ≠ tx2.amount) :
    ((handle_paystack_webhook db1 p n1).2 = true ∧
      get_wallet_by_user_id (handle_paystack_webhook db1 p n1).1 uid1
        = some { w1 with balance := w1.balance + d.amount }) ∧
    ((reconcile_deposit db2 ref2 v).2 = true ∧
      get_wallet_by_user_id (reconcile_deposit db2 ref2 v).1 uid2
        = some { w2 with balance := w2.balance + v.amount }) := by
  constructor
  · have h1 := handle_webhook_applied db1 p n1 d ref1 tx1 uid1 w1 hd href hrefne hstat
      htx1 hns huid1 huidne1 hw1
    rw [h1]
    exact ⟨rfl, applyCredit_wallet_lookup db1 tx1 w1 d.amount n1 uid1 hw1⟩
  · have htruthy : truthystr (some uid2) = true := by simp [truthystr, huidne2]
    have hres : reconcile_deposit db2 ref2 v
        = ({ db2 with
             wallets := db2.wallets.map fun x =>
               if x.id = w2.id then { x with balance := x.balance + v.amount } else x,
             transactions := db2.transactions.map fun t =>
               if t.id = tx2.id then { t with status := "success" } else t }, true) := by
      simp only [reconcile_deposit, hok, hst, htx2, hpend2, huid2, htruthy,
        Option.getD_some, hw2]
      simp
    rw [hres]
    refine ⟨rfl, ?_⟩
    have hw2' : db2.wallets.find? (fun w => w.userId == uid2) = some w2 := hw2
    unfold get_wallet_by_user_id
    rw [find?_map_pres _ _ (fun x => by by_cases hx : x.id = w2.id <;> simp [hx]), hw2']
    simp

/-- C7 witness: deposit recorded as 5000 but event/verification reporting
4000 — the wallet is credited 4000 in both finalization paths. -/
theorem C7_credit_uses_event_amount_witness :
    ((handle_paystack_webhook exC7db exC7payload "t").2 = true ∧
      get_wallet_by_user_id (handle_paystack_webhook exC7db exC7payload "t").1 "u1"
        = some { id := "w1", userId := "u1", balance := (0 : Int) + 4000, walletNumber := "N1" }) ∧
    ((reconcile_deposit exC7db "DEP-X"
        { ok := true, dataStatus := some "success", amount := 4000 }).2 = true ∧
      get_wallet_by_user_id (reconcile_deposit exC7db "DEP-X"
        { ok := true, dataStatus := some "success", amount := 4000 }).1 "u1"
        = some { id := "w1", userId := "u1", balance := (0 : Int) + 4000, walletNumber := "N1" }) :=
  C7_credit_uses_event_amount exC7db exC7payload "t"
    { reference := some "DEP-X", amount := 4000, status := some "success" } "DEP-X"
    { id := "t1", walletId := "w1", reference := "DEP-X", type := "deposit",
      amount := 5000, status := "pending", meta := { userId := some "u1" } }
    "u1" { id := "w1", userId := "u1", balance := 0, walletNumber := "N1" }
    (by decide) (by decide) (by decide) (by decide) (by decide) (by decide)
    (by decide) (by decide) (by decide) (by decide)
    exC7db "DEP-X" { ok := true, dataStatus := some "success", amount := 4000 }
    { id := "t1", walletId := "w1", reference := "DEP-X", type := "deposit",
      amount := 5000, status := "pending", meta := { userId := some "u1" } }
    "u1" { id := "w1", userId := "u1", balance := 0, walletNumber := "N1" }
    (by decide) (by decide) (by decide) (by decide) (by decide) (by decide)
    (by decide) (by decide)

theorem initiate_deposit_wallets (db : DB) (u : String) (a : Int) (e r t : String)
    (resp : InitResponse) :
    (initiate_deposit db u a e r t resp).1.wallets = db.wallets := by
  unfold initiate_deposit
  cases hw : get_wallet_by_user_id db u with
  | none => rfl
  | some w => by_cases hok : resp.ok <;> simp [hok]

theorem run_deposit_request_wallets (db : DB) (u : String) (a : Int) (e r t : String)
    (resp : InitResponse) :
    (run_deposit_request db u a e r t resp).1.wallets = db.wallets := by
  unfold run_deposit_request
  cases h : initiate_deposit db u a e r t resp with
  | mk db1 res =>
    cases res with
    | ok v =>
      have h2 := initiate_deposit_wallets db u a e r t resp
      rw [h] at h2
      simpa using h2
    | error e2 => simp

theorem applyCredit_preserves_inv (db : DB) (tx : Transaction) (w : Wallet)
    (a : Int) (n : String) (ha : 0 ≤ a) (hinv : WalletInv db) :
    WalletInv (applyCredit db tx w a n) := by
  obtain ⟨hpos, hnd⟩ := hinv
  constructor
  · intro x hx
    unfold applyCredit at hx
    simp only [List.mem_map] at hx
    obtain ⟨y, hy, rfl⟩ := hx
    by_cases hyid : y.id = w.id
    · have := hpos y hy
      simp only [hyid, if_pos rfl, if_true]
      simp
      omega
    · simp only [if_neg hyid]
      exact hpos y hy
  · have hids : ((applyCredit db tx w a n).wallets.map fun x => x.id)
        = db.wallets.map fun x => x.id := by
      unfold applyCredit
      simp only [List.map_map]
      apply List.map_congr_left
      intro x _
      by_cases hxid : x.id = w.id <;> simp [hxid]
    rw [hids]
    exact hnd

theorem handle_webhook_preserves_inv (db : DB) (p : Payload) (n : String)
    (hda : 0 ≤ p.data.amount) (hta : 0 ≤ p.top.amount)
    (hinv : WalletInv db) : WalletInv (handle_paystack_webhook db p n).1 := by
  have hchosen : ∀ d, chosenData p = some d → 0 ≤ d.amount := by
    intro d hcd
    unfold chosenData at hcd
    by_cases he : truthystr p.event
    · rw [if_pos he] at hcd
      by_cases he2 : p.event = some "charge.success"
      · rw [if_pos he2] at hcd
        cases hcd
        exact hda
      · rw [if_neg he2] at hcd
        cases hcd
    · rw [if_neg he] at hcd
      cases hcd
      exact hta
  unfold handle_paystack_webhook
  repeat' split
  all_goals try exact hinv
  all_goals refine applyCredit_preserves_inv _ _ _ _ _ (hchosen _ ?_) hinv
  all_goals assumption
theorem map_ids_pres (f : Wallet → Wallet) (hf : ∀ x, (f x).id = x.id) (l : List Wallet) :
    (l.map f).map (fun x => x.id) = l.map (fun x => x.id) := by
  simp only [List.map_map]
  apply List.map_congr_left
  intro x _
  simpa [Function.comp] using hf x

theorem walletInv_credit (db2 db : DB) (wid : String) (a : Int) (ha : 0 ≤ a)
    (hw : db2.wallets = db.wallets.map fun x =>
      if x.id = wid then { x with balance := x.balance + a } else x)
    (hinv : WalletInv db) : WalletInv db2 := by
  obtain ⟨hpos, hnd⟩ := hinv
  constructor
  · intro x hx
    rw [hw] at hx
    simp only [List.mem_map] at hx
    obtain ⟨y, hy, rfl⟩ := hx
    by_cases hyid : y.id = wid
    · have := hpos y hy
      simp only [if_pos hyid]
      simp
      omega
    · simp only [if_neg hyid]
      exact hpos y hy
  · rw [hw]
    rw [map_ids_pres _ (fun x => by by_cases hxid : x.id = wid <;> simp [hxid])]
    exact hnd

theorem reconcile_preserves_inv (db : DB) (ref : String) (v : VerifyResponse)
    (ha : 0 ≤ v.amount) (hinv : WalletInv db) :
    WalletInv (reconcile_deposit db ref v).1 := by
  unfold reconcile_deposit
  repeat' split
  all_goals try exact hinv
  all_goals exact walletInv_credit _ db _ v.amount ha rfl hinv

theorem walletInv_transfer (db2 db : DB) (s n : String) (sw rw : Wallet) (amount : Int)
    (hfs : get_wallet_by_user_id db s = some sw)
    (hfr : get_wallet_by_wallet_number db n = some rw)
    (hneq : ¬ sw.userId = rw.userId)
    (hbal : ¬ sw.balance < amount)
    (ha : 0 < amount)
    (hw : db2.wallets = (db.wallets.map fun x =>
        if x.id = sw.id then { x with balance := x.balance - amount } else x).map fun x =>
          if x.id = rw.id then { x with balance := x.balance + amount } else x)
    (hinv : WalletInv db) : WalletInv db2 := by
  obtain ⟨hpos, hnd⟩ := hinv
  have hswmem : sw ∈ db.wallets := List.mem_of_find?_eq_some hfs
  have hrwmem : rw ∈ db.wallets := List.mem_of_find?_eq_some hfr
  have hswrw : ¬ sw.id = rw.id := fun hidEq =>
    hneq (congrArg Wallet.userId (List.inj_on_of_nodup_map hnd hswmem hrwmem hidEq))
  constructor
  · intro x hx
    rw [hw] at hx
    simp only [List.map_map, List.mem_map, Function.comp] at hx
    obtain ⟨y, hy, rfl⟩ := hx
    by_cases hy1 : y.id = sw.id
    · have hysw : y = sw := List.inj_on_of_nodup_map hnd hy hswmem hy1
      have hbal2 : amount ≤ y.balance := by rw [hysw]; omega
      rw [if_pos hy1, if_neg (by simp only [hy1]; simpa using hswrw)]
      simp
      omega
    · rw [if_neg hy1]
      by_cases hy2 : y.id = rw.id
      · rw [if_pos hy2]
        have := hpos y hy
        simp
        omega
      · rw [if_neg hy2]
        exact hpos y hy
  · rw [hw]
    rw [map_ids_pres _ (fun x => by by_cases h2 : x.id = rw.id <;> simp [h2]),
        map_ids_pres _ (fun x => by by_cases h1 : x.id = sw.id <;> simp [h1])]
    exact hnd

theorem transfer_funds_preserves_inv (db db1 : DB) (s n : String) (amount : Int)
    (oi orf ii irf : String) (ha : 0 < amount)
    (h : transfer_funds db s n amount oi orf ii irf = .ok db1)
    (hinv : WalletInv db) : WalletInv db1 := by
  unfold transfer_funds at h
  split at h
  · exact absurd h (by simp)
  · exact absurd h (by simp)
  · split at h
    · exact absurd h (by simp)
    · split at h
      · exact absurd h (by simp)
      · injection h with h
        subst h
        refine walletInv_transfer _ db s n _ _ amount ?_ ?_ ?_ ?_ ha rfl hinv <;>
          assumption

theorem transfer_request_preserves_inv (db : DB) (s n : String) (amount : Int)
    (oi orf ii irf : String) (ha : 0 < amount) (hinv : WalletInv db) :
    WalletInv (run_transfer_request db s n amount oi orf ii irf).1 := by
  unfold run_transfer_request
  cases htf : transfer_funds db s n amount oi orf ii irf with
  | ok db1 => exact transfer_funds_preserves_inv db db1 s n amount oi orf ii irf ha htf hinv
  | error e => exact hinv

theorem create_user_preserves_inv (db : DB) (email name uid wid wnum : String)
    (hfresh : ∀ w ∈ db.wallets, w.id ≠ wid) (hinv : WalletInv db) :
    WalletInv (create_user db email name uid wid wnum) := by
  obtain ⟨hpos, hnd⟩ := hinv
  constructor
  · intro x hx
    unfold create_user at hx
    simp only [List.mem_append, List.mem_singleton] at hx
    rcases hx with hx | rfl
    · exact hpos x hx
    · simp
  · unfold create_user
    simp only [List.map_append, List.map_cons, List.map_nil]
    rw [List.nodup_append]
    refine ⟨hnd, List.nodup_singleton _, ?_⟩
    intro a ha hb
    simp only [List.mem_singleton] at hb
    subst hb
    simp only [List.mem_map] at ha
    obtain ⟨w, hw, hwid⟩ := ha
    exact hfresh w hw hwid

theorem reachable_walletInv (db : DB) (h : Reachable db) : WalletInv db := by
  induction h with
  | init => exact ⟨by simp, by simp⟩
  | @createUser db0 email name uid wid wnum hfresh _ ih =>
    exact create_user_preserves_inv db0 email name uid wid wnum hfresh ih
  | @deposit db0 u a e r t resp _ ih =>
    obtain ⟨hpos, hnd⟩ := ih
    have hw := run_deposit_request_wallets db0 u a e r t resp
    exact ⟨by rw [hw]; exact hpos, by rw [hw]; exact hnd⟩
  | @webhook db0 p n hd ht _ ih => exact handle_webhook_preserves_inv db0 p n hd ht ih
  | @reconcile db0 r v hv _ ih => exact reconcile_preserves_inv db0 r v hv ih
  | @transfer db0 s n amount oi orf ii irf ha _ ih =>
    exact transfer_request_preserves_inv db0 s n amount oi orf ii irf ha ih

/-- C3 (amended): every wallet balance is non-negative in every state
reachable from the empty store by create-user, deposit initiation,
webhook finalization, reconciliation and transfer — provided the amounts
carried by webhook payloads and gateway verifications are non-negative
and transfer amounts are positive (the request validation enforces the
latter, but nothing in the code checks the former: dropping that proviso
falsifies the invariant, see the counterexample). -/
theorem C3_balances_nonneg (db : DB) (h : Reachable db) :
    ∀ w ∈ db.wallets, 0 ≤ w.balance :=
  (reachable_walletInv db h).1

/-- C3 witness: the invariant instantiated on the one-wallet state
reached by `create_user` from the empty store. -/
theorem C3_balances_nonneg_witness :
    (0 : Int) ≤ ({ id := "w1", userId := "u1", balance := 0, walletNumber := "N1" } : Wallet).balance :=
  C3_balances_nonneg exOneUserDb
    (Reachable.createUser "a@b.c" "Ada" "u1" "w1" "N1" (by simp) Reachable.init)
    { id := "w1", userId := "u1", balance := 0, walletNumber := "N1" } (by decide)

/-- C3 counterexample: without the sign proviso the claim is false on the
code — an operation chain of the system (create user, initiate deposit
with gateway success, then a success webhook whose payload carries amount
-5) drives the wallet balance to -5 < 0: `handle_paystack_webhook` adds
`int(data.get("amount", 0))` to the balance without any sign check
(wallet_service.py lines 121 and 140). -/
theorem C3_counterexample :
    ∃ w ∈ (handle_paystack_webhook
        (run_deposit_request exOneUserDb "u1" 100 "a@b.c" "DEP-1" "t1"
          { ok := true, authorizationUrl := "u" }).1
        exC3payload "ts").1.wallets, w.balance < 0 :=
  ⟨{ id := "w1", userId := "u1", balance := -5, walletNumber := "N1" },
    by decide, by decide⟩

theorem generate_ok_count_le (kdb : KeyDB) (now : Int) (userId name : String)
    (perms : List String) (expiryStr newId rawKey : String)
    (kdb1 : KeyDB) (raw : String) (exp : Int)
    (h : generate_api_key kdb now userId name perms expiryStr newId rawKey
          = .ok (kdb1, raw, exp))
    (hinv : ∀ uid, (activeKeysQuery kdb uid now).length ≤ 5) :
    ∀ uid, (activeKeysQuery kdb1 uid now).length ≤ 5 := by
  unfold generate_api_key at h
  split at h
  · exact absurd h (by simp)
  · rename_i hguard
    split at h
    · exact absurd h (by simp)
    · split at h
      · exact absurd h (by simp)
      · rename_i delta hparse
        simp only [Except.ok.injEq, Prod.mk.injEq] at h
        obtain ⟨hk, -, -⟩ := h
        subst hk
        intro uid
        have hguard2 : (activeKeysQuery kdb userId now).length ≤ 4 := by omega
        have hother := hinv uid
        unfold activeKeysQuery at hguard2 hother ⊢
        rw [List.filter_append, List.length_append]
        by_cases huid : userId = uid
        · subst huid
          have hsingle : (List.filter
              (fun k : APIKey => k.userId == userId && k.isActive && decide (now < k.expiresAt))
              [{ id := newId, userId := userId, name := name,
                 keyHash := hash_api_key rawKey, permissions := perms,
                 expiresAt := now + delta, isActive := true }]).length ≤ 1 := by
            simp only [List.filter]
            split <;> simp
          omega
        · have hzero : (List.filter
              (fun k : APIKey => k.userId == uid && k.isActive && decide (now < k.expiresAt))
              [{ id := newId, userId := userId, name := name,
                 keyHash := hash_api_key rawKey, permissions := perms,
                 expiresAt := now + delta, isActive := true }]).length = 0 := by
            simp [huid]
          omega

theorem activeCount_anti (kdb : KeyDB) (uid : String) (now now1 : Int) (h : now ≤ now1) :
    (activeKeysQuery kdb uid now1).length ≤ (activeKeysQuery kdb uid now).length := by
  unfold activeKeysQuery
  apply length_filter_le_of_imp
  intro k _ hk
  simp only [Bool.and_eq_true, decide_eq_true_eq] at hk ⊢
  exact ⟨hk.1, by omega⟩

theorem activeCount_deactivate_le (kdb : KeyDB) (uid : String) (now : Int)
    (f : APIKey → APIKey)
    (hf : ∀ k, f k = k ∨ f k = { k with isActive := false }) :
    (activeKeysQuery { keys := kdb.keys.map f } uid now).length
      ≤ (activeKeysQuery kdb uid now).length := by
  unfold activeKeysQuery
  apply length_filter_map_le
  intro k _ hk
  rcases hf k with h | h <;> rw [h] at hk
  · exact hk
  · simp at hk

theorem keyReachable_count_le (kdb : KeyDB) (now : Int) (h : KeyReachable kdb now) :
    ∀ uid, (activeKeysQuery kdb uid now).length ≤ 5 := by
  induction h with
  | init t0 => intro uid; simp [activeKeysQuery]
  | @tick kdb0 now0 now1 hle _ ih =>
    intro uid
    exact le_trans (activeCount_anti kdb0 uid now0 now1 hle) (ih uid)
  | @create kdb0 now0 userId name perms expiryStr newId rawKey kdb1 raw exp h _ ih =>
    exact generate_ok_count_le kdb0 now0 userId name perms expiryStr newId rawKey
      kdb1 raw exp h ih
  | @rollover kdb0 now0 expiredKeyId expiryStr newId rawKey kdb1 raw exp h _ ih =>
    unfold rollover_api_key at h
    split at h
    · exact absurd h (by simp)
    · rename_i oldKey hfind
      split at h
      · exact absurd h (by simp)
      · have hinv2 : ∀ uid,
            (activeKeysQuery
              { keys := kdb0.keys.map fun k =>
                  if k.id = oldKey.id then { k with isActive := false } else k }
              uid now0).length ≤ 5 := by
          intro uid
          exact le_trans
            (activeCount_deactivate_le kdb0 uid now0 _
              (fun k => by by_cases hk : k.id = oldKey.id <;> simp [hk]))
            (ih uid)
        exact generate_ok_count_le _ now0 _ _ _ expiryStr newId rawKey kdb1 raw exp h hinv2
  | @revoke kdb0 now0 userId keyId _ ih =>
    intro uid
    unfold revoke_api_key
    cases hf : kdb0.keys.find? (fun k => k.id == keyId && k.userId == userId && k.isActive) with
    | none => exact ih uid
    | some k0 =>
      exact le_trans
        (activeCount_deactivate_le kdb0 uid now0 _
          (fun k => by by_cases hk : k.id = k0.id <;> simp [hk]))
        (ih uid)

/-- C8: creating a sixth simultaneously active unexpired key fails with
the limit `ValueError` before anything is inserted (api_key_manager.py
lines 44–52; the error return carries no store, so the request-level
rollback leaves the store untouched), and in every store reachable under
the key lifecycle — creation, rollover, revocation (modelled from the
spec, its body being absent from the sources), and the passage of time —
every user has at most 5 active unexpired keys. -/
theorem C8_api_key_limit :
    (∀ (kdb : KeyDB) (now : Int) (userId name : String) (perms : List String)
        (expiryStr newId rawKey : String),
        5 ≤ (activeKeysQuery kdb userId now).length →
        generate_api_key kdb now userId name perms expiryStr newId rawKey
          = .error .limitReached) ∧
    (∀ (kdb : KeyDB) (now : Int), KeyReachable kdb now →
        ∀ uid, (activeKeysQuery kdb uid now).length ≤ 5) := by
  constructor
  · intro kdb now userId name perms expiryStr newId rawKey hge
    unfold generate_api_key
    rw [if_pos hge]
  · intro kdb now h uid
    exact keyReachable_count_le kdb now h uid

/-- C8 witness: a sixth key for the user holding five active keys is
refused, and the invariant instance on the empty reachable store. -/
theorem C8_api_key_limit_witness :
    generate_api_key exC8kdb 0 "u" "n" ["read"] "1H" "k6" "raw" = .error .limitReached ∧
    (activeKeysQuery { keys := [] } "u" 0).length ≤ 5 :=
  ⟨C8_api_key_limit.1 exC8kdb 0 "u" "n" ["read"] "1H" "k6" "raw" (by decide),
   C8_api_key_limit.2 { keys := [] } 0 (KeyReachable.init 0) "u"⟩

theorem generate_ok_of (kdb : KeyDB) (now : Int) (userId name : String)
    (perms : List String) (expiryStr newId rawKey : String) (delta : Int)
    (hcount : (activeKeysQuery kdb userId now).length < 5)
    (hperm : ∀ q ∈ perms, APIKeyPermissions_ALL.contains q = true)
    (hparse : parse_expiry expiryStr = .ok delta) :
    generate_api_key kdb now userId name perms expiryStr newId rawKey
      = .ok ({ keys := kdb.keys ++
          [{ id := newId, userId := userId, name := name,
             keyHash := hash_api_key rawKey, permissions := perms,
             expiresAt := now + delta, isActive := true }] }, rawKey, now + delta) := by
  unfold generate_api_key
  rw [if_neg (by omega)]
  have hfind : perms.find? (fun p => !(APIKeyPermissions_ALL.contains p)) = none := by
    rw [List.find?_eq_none]
    intro a ha
    rw [hperm a ha]
    simp
  rw [hfind, hparse]

/-- C9 (amended): rollover is permitted exactly when the target key's
expiry is not in the future — `expires_at ≤ now`, equality included,
whereas the claim requires it to be strictly in the past (the check at
api_key_manager.py line 122 is `expires_at > utcnow()`).  On success the
old key's active flag becomes false and the new key inherits the old
key's permission set; when `expires_at > now` the call fails with the
not-yet-expired error and, the error carrying no store, mutates
nothing. -/
theorem C9_rollover_permissions
    (kdb : KeyDB) (now : Int) (expiredKeyId expiryStr newId rawKey : String)
    (oldKey : APIKey) (delta : Int)
    (hfind : kdb.keys.find? (fun k => k.id == expiredKeyId) = some oldKey)
    (hexp : oldKey.expiresAt ≤ now)
    (hperm : ∀ q ∈ oldKey.permissions, APIKeyPermissions_ALL.contains q = true)
    (hparse : parse_expiry expiryStr = .ok delta)
    (hcount : (activeKeysQuery kdb oldKey.userId now).length < 5)
    (hfreshid : newId ≠ oldKey.id)
    (kdb2 : KeyDB) (now2 : Int) (id2 e2 n2 r2 : String) (k2 : APIKey)
    (hfind2 : kdb2.keys.find? (fun k => k.id == id2) = some k2)
    (hexp2 : now2 < k2.expiresAt) :
    (∃ kdb1 raw exp,
      rollover_api_key kdb now expiredKeyId expiryStr newId rawKey = .ok (kdb1, raw, exp) ∧
      (∀ x ∈ kdb1.keys, x.id = oldKey.id → x.isActive = false) ∧
      (∃ nk ∈ kdb1.keys, nk.id = newId ∧ nk.permissions = oldKey.permissions ∧
        nk.isActive = true ∧ nk.expiresAt = now + delta)) ∧
    rollover_api_key kdb2 now2 id2 e2 n2 r2 = .error .notYetExpired := by
  constructor
  · unfold rollover_api_key
    simp only [hfind]
    rw [if_neg (by omega)]
    have hcount2 : (activeKeysQuery
        { keys := kdb.keys.map fun k =>
            if k.id = oldKey.id then { k with isActive := false } else k }
        oldKey.userId now).length < 5 :=
      lt_of_le_of_lt
        (activeCount_deactivate_le kdb oldKey.userId now _
          (fun k => by by_cases hk : k.id = oldKey.id <;> simp [hk]))
        hcount
    rw [generate_ok_of _ now _ _ _ expiryStr newId rawKey delta hcount2 hperm hparse]
    refine ⟨_, rawKey, now + delta, rfl, ?_, ?_⟩
    · intro x hx hxid
      simp only [List.mem_append, List.mem_map, List.mem_singleton] at hx
      rcases hx with ⟨y, hy, rfl⟩ | rfl
      · by_cases hyid : y.id = oldKey.id
        · simp [hyid]
        · simp only [if_neg hyid] at hxid ⊢
          exact absurd hxid hyid
      · exact absurd hxid hfreshid
    · refine ⟨_, List.mem_append.mpr (Or.inr (List.mem_singleton_self _)), rfl, rfl, rfl, rfl⟩
  · unfold rollover_api_key
    simp only [hfind2]
    rw [if_pos hexp2]

/-- C9 witness: rolling over a key expired at 100 at time 200 with a
fresh one-hour expiry succeeds, deactivates the old key and copies its
permission set; rolling the same key over at time 50 (before expiry)
fails with the not-yet-expired error. -/
theorem C9_rollover_permissions_witness :
    (∃ kdb1 raw exp,
      rollover_api_key exC9wkdb 200 "k1" "1H" "k2" "raw" = .ok (kdb1, raw, exp) ∧
      (∀ x ∈ kdb1.keys, x.id = "k1" → x.isActive = false) ∧
      (∃ nk ∈ kdb1.keys, nk.id = "k2" ∧ nk.permissions = ["read", "transfer"] ∧
        nk.isActive = true ∧ nk.expiresAt = (200 : Int) + 1)) ∧
    rollover_api_key exC9wkdb 50 "k1" "1H" "k2" "raw" = .error .notYetExpired :=
  C9_rollover_permissions exC9wkdb 200 "k1" "1H" "k2" "raw"
    { id := "k1", userId := "u", name := "old", keyHash := "h",
      permissions := ["read", "transfer"], expiresAt := 100, isActive := true } 1
    (by rfl) (by decide) (by decide) (by rfl) (by decide) (by decide)
    exC9wkdb 50 "k1" "1H" "k2" "raw"
    { id := "k1", userId := "u", name := "old", keyHash := "h",
      permissions := ["read", "transfer"], expiresAt := 100, isActive := true }
    (by rfl) (by decide)

/-- C9 counterexample: the claim permits rollover only when the expiry
timestamp is in the past, but with `expires_at` exactly equal to the
current time (100 = 100, not in the past) the code's `expires_at > now`
check passes it through and the rollover succeeds, deactivating the old
key and issuing a new one expiring at 101. -/
theorem C9_counterexample :
    rollover_api_key exC9kdb 100 "k1" "1H" "k2" "raw"
      = .ok ({ keys := [{ id := "k1", userId := "u", name := "old", keyHash := "h",
                          permissions := ["read", "transfer"], expiresAt := 100,
                          isActive := false },
                        { id := "k2", userId := "u", name := "Rollover of old",
                          keyHash := hash_api_key "raw",
                          permissions := ["read", "transfer"], expiresAt := 101,
                          isActive := true }] }, "raw", 101) := by
  rfl

theorem dropWhile_eq_self_of_forall (p : Char → Bool) :
    ∀ l : List Char, (∀ c ∈ l, p c = false) → l.dropWhile p = l
  | [], _ => rfl
  | c :: l, h => by
    rw [List.dropWhile_cons, h c (List.mem_cons_self c l)]
    simp

theorem pyStrip_eq_self (l : List Char) (h : ∀ c ∈ l, isPySpace c = false) :
    pyStrip l = l := by
  unfold pyStrip
  rw [dropWhile_eq_self_of_forall _ l h,
    dropWhile_eq_self_of_forall _ l.reverse (fun c hc => h c (List.mem_reverse.mp hc))]
  exact List.reverse_reverse l

theorem isPySpace_eq_false_of_isDigit (c : Char) (h : c.isDigit = true) :
    isPySpace c = false := by
  by_contra hc
  rw [Bool.not_eq_false] at hc
  simp only [isPySpace, Bool.or_eq_true, decide_eq_true_eq] at hc
  rcases hc with (((((((((hc | hc) | hc) | hc) | hc) | hc) | hc) | hc) | hc) | hc) <;>
    subst hc <;> exact absurd h (by decide)

theorem pyDigitsTail_of_all : ∀ l : List Char,
    (∀ c ∈ l, c.isDigit = true) → pyDigitsTail l = true
  | [], _ => rfl
  | c :: l, h => by
    have hc := h c (List.mem_cons_self c l)
    have hne : ¬ c = '_' := fun hq => by subst hq; exact absurd hc (by decide)
    unfold pyDigitsTail
    rw [if_neg hne, hc, pyDigitsTail_of_all l (fun x hx => h x (List.mem_cons_of_mem c hx))]
    rfl

theorem filter_ne_underscore_of_digits (l : List Char)
    (h : ∀ c ∈ l, c.isDigit = true) : (l.filter fun x => x ≠ '_') = l := by
  apply List.filter_eq_self.mpr
  intro a ha
  have hd := h a ha
  simp only [ne_eq, decide_eq_true_eq]
  exact fun hq => by subst hq; exact absurd hd (by decide)

theorem pythonInt_digits (l : List Char) (h1 : l ≠ [])
    (h2 : ∀ c ∈ l, c.isDigit = true) :
    pythonInt (String.mk l) = some ((digitsVal l : Int)) := by
  obtain ⟨c, rest, rfl⟩ := List.exists_cons_of_ne_nil h1
  have hc := h2 c (List.mem_cons_self c rest)
  have hplus : ¬ c = '+' := fun hq => by subst hq; exact absurd hc (by decide)
  have hminus : ¬ c = '-' := fun hq => by subst hq; exact absurd hc (by decide)
  have hstrip : pyStrip (String.mk (c :: rest)).toList = c :: rest :=
    pyStrip_eq_self _ (fun x hx => isPySpace_eq_false_of_isDigit x (h2 x hx))
  have hsign : pySign (pyStrip (String.mk (c :: rest)).toList) = (1, c :: rest) := by
    rw [hstrip]
    simp only [pySign]
    rw [if_neg hplus, if_neg hminus]
  simp only [pythonInt, hsign]
  rw [if_pos (by
    rw [hc, pyDigitsTail_of_all rest (fun x hx => h2 x (List.mem_cons_of_mem c hx))]
    rfl)]
  rw [filter_ne_underscore_of_digits _ h2]
  simp

/-- C10 (amended): the parser accepts strictly more than the claimed
grammar.  (1) Every string of the claimed form — one or more digits then
an uppercase unit letter in {H, D, M, Y} — is accepted and mapped to the
corresponding duration; (2) every nonempty input is either accepted or
rejected with a `ValueError` (a validation error); but (3) the empty
string raises an `IndexError` from `expiry_str[-1]`, not a validation
error, and (4) an accepted string need only have a case-insensitive unit
letter and a prefix accepted by Python's `int` — which also admits signs,
surrounding whitespace and digit-group underscores (see the
counterexample for `-5H` and `1h`). -/
theorem C10_parse_expiry_amended :
    (∀ s v, claimedExpiryDuration s = some v → parse_expiry s = .ok v) ∧
    (∀ s : String, s ≠ "" →
      (∃ v, parse_expiry s = .ok v) ∨ (∃ m, parse_expiry s = .error (.valueError m))) ∧
    parse_expiry "" = .error .indexError ∧
    (∀ (s : String) (ds : List Char) (u : Char), s.toList = ds ++ [u] →
      ∀ v, parse_expiry s = .ok v →
        (claimedUnitHours u.toUpper).isSome ∧ (pythonInt (String.mk ds)).isSome) := by
  refine ⟨?_, ?_, rfl, ?_⟩
  · intro s v hc
    unfold claimedExpiryDuration at hc
    split at hc
    · exact absurd hc (by simp)
    · rename_i u hlast
      split at hc
      · rename_i hcond
        split at hc
        · exact absurd hc (by simp)
        · rename_i m hm
          injection hc with hc
          obtain ⟨hne, hall⟩ := hcond
          have hdigits : ∀ c ∈ s.toList.dropLast, c.isDigit = true := by
            intro c hcmem
            exact List.all_eq_true.mp hall c hcmem
          have hpi : pythonInt (String.mk s.toList.dropLast)
              = some ((digitsVal s.toList.dropLast : Int)) :=
            pythonInt_digits _ hne hdigits
          simp only [parse_expiry, hlast, hpi]
          unfold claimedUnitHours at hm
          split at hm
          · injection hm with hm
            subst hm
            subst hc
            rw [if_pos (show Char.toUpper 'H' = 'H' by decide), one_mul]
          · injection hm with hm
            subst hm
            subst hc
            rw [if_neg (show ¬ Char.toUpper 'D' = 'H' by decide),
              if_pos (show Char.toUpper 'D' = 'D' by decide)]
          · injection hm with hm
            subst hm
            subst hc
            rw [if_neg (show ¬ Char.toUpper 'M' = 'H' by decide),
              if_neg (show ¬ Char.toUpper 'M' = 'D' by decide),
              if_pos (show Char.toUpper 'M' = 'M' by decide)]
          · injection hm with hm
            subst hm
            subst hc
            rw [if_neg (show ¬ Char.toUpper 'Y' = 'H' by decide),
              if_neg (show ¬ Char.toUpper 'Y' = 'D' by decide),
              if_neg (show ¬ Char.toUpper 'Y' = 'M' by decide),
              if_pos (show Char.toUpper 'Y' = 'Y' by decide)]
          · exact absurd hm (by simp)
      · exact absurd hc (by simp)
  · intro s hne
    have hu : ∃ u, s.toList.getLast? = some u := by
      cases hl : s.toList.getLast? with
      | some u => exact ⟨u, rfl⟩
      | none =>
        exfalso
        rw [List.getLast?_eq_none_iff] at hl
        apply hne
        cases s with
        | mk data =>
          have : data = [] := hl
          rw [this]
    obtain ⟨u, hu⟩ := hu
    unfold parse_expiry
    cases hpi : pythonInt (String.mk s.toList.dropLast) with
    | none =>
      simp only [hu, hpi]
      right
      exact ⟨_, rfl⟩
    | some v =>
      simp only [hu, hpi]
      by_cases h1 : u.toUpper = 'H'
      · simp only [if_pos h1]
        left
        exact ⟨v, rfl⟩
      · simp only [if_neg h1]
        by_cases h2 : u.toUpper = 'D'
        · simp only [if_pos h2]
          left
          exact ⟨_, rfl⟩
        · simp only [if_neg h2]
          by_cases h3 : u.toUpper = 'M'
          · simp only [if_pos h3]
            left
            exact ⟨_, rfl⟩
          · simp only [if_neg h3]
            by_cases h4 : u.toUpper = 'Y'
            · simp only [if_pos h4]
              left
              exact ⟨_, rfl⟩
            · simp only [if_neg h4]
              right
              exact ⟨_, rfl⟩
  · intro s ds u hs v hv
    have hlast : s.toList.getLast? = some u := by
      rw [hs, List.getLast?_concat]
    have hdrop : s.toList.dropLast = ds := by
      rw [hs, List.dropLast_concat]
    unfold parse_expiry at hv
    simp only [hlast, hdrop] at hv
    cases hpi : pythonInt (String.mk ds) with
    | none =>
      simp only [hpi] at hv
      exact absurd hv (by simp)
    | some w =>
      simp only [hpi] at hv
      refine ⟨?_, by simp [hpi]⟩
      by_cases h1 : u.toUpper = 'H'
      · simp [claimedUnitHours, h1]
      · rw [if_neg h1] at hv
        by_cases h2 : u.toUpper = 'D'
        · simp [claimedUnitHours, h2]
        · rw [if_neg h2] at hv
          by_cases h3 : u.toUpper = 'M'
          · simp [claimedUnitHours, h3]
          · rw [if_neg h3] at hv
            by_cases h4 : u.toUpper = 'Y'
            · simp [claimedUnitHours, h4]
            · rw [if_neg h4] at hv
              exact absurd hv (by simp)

/-- C10 witness: `10D` — digits plus uppercase unit — parses to 240
hours via the claimed-grammar inclusion, and the non-grammar nonempty
string `ZZ` lands in the ok-or-validation-error dichotomy. -/
theorem C10_parse_expiry_amended_witness :
    parse_expiry "10D" = .ok 240 ∧
    ((∃ v, parse_expiry "ZZ" = .ok v) ∨
      (∃ m, parse_expiry "ZZ" = .error (.valueError m))) :=
  ⟨C10_parse_expiry_amended.1 "10D" 240 (by rfl),
   C10_parse_expiry_amended.2.1 "ZZ" (by decide)⟩

/-- C10 counterexample: the claim says exactly digit-plus-{H,D,M,Y}
strings are accepted and everything else (the empty string included) is
a validation error; but the code accepts `-5H` (signed prefix via
Python's `int`) and `1h` (lowercase unit via `.upper()`), neither of
which the claimed grammar generates, and the empty string raises an
`IndexError` from `expiry_str[-1]`, not a `ValueError`. -/
theorem C10_counterexample :
    parse_expiry "-5H" = .ok (-5) ∧ claimedExpiryDuration "-5H" = none ∧
    parse_expiry "1h" = .ok 1 ∧ claimedExpiryDuration "1h" = none ∧
    parse_expiry "" = .error .indexError :=
  ⟨rfl, rfl, rfl, rfl, rfl⟩

end FastWallet
